import Mathlib

/-!
Verification of the Snake game engine of `snake_game.py`
(`ProfessionalSnakeGame`): a shallow embedding of the engine state and of
the operations `reset_game`, `generate_food`, `move`, and the arrow-key
handling of the `run` loop, together with proofs of the specification's
claims about collisions, growth, score, speed, food placement and the
game-over state machine.

Coordinates are kept in pixels exactly as the source stores them
(tuples of ints, multiples of `CELL_SIZE` in every reachable state);
the snake is the source's list of tuples, head first.  The game speed,
a Python float in the source, is modelled as a rational number
(`SPEED_INCREMENT = 0.4` becomes `2/5`).  Randomness (`random.randint`
inside `generate_food`) is modelled two ways: as a fuelled sampler
stream for the termination analysis, and relationally (`FoodOk`: the
exact postcondition of a terminating `generate_food` call) for the
reachable-state analysis.
-/

/-- Screen width in pixels (`WIDTH, HEIGHT = 800, 600`). -/
def WIDTH : Int := 800

/-- Screen height in pixels. -/
def HEIGHT : Int := 600

/-- Side of one grid cell in pixels (`CELL_SIZE = 28`). -/
def CELL_SIZE : Int := 28

/-- Starting game speed (`INITIAL_SPEED = 10`). -/
def INITIAL_SPEED : ℚ := 10

/-- Speed increase per food eaten (`SPEED_INCREMENT = 0.4`), as the exact
rational 2/5. -/
def SPEED_INCREMENT : ℚ := 2 / 5

/-- Maximum possible game speed (`MAX_SPEED = 24`). -/
def MAX_SPEED : ℚ := 24

/-- Direction vector `UP = (0, -1)`. -/
def UP : Int × Int := (0, -1)

/-- Direction vector `DOWN = (0, 1)`. -/
def DOWN : Int × Int := (0, 1)

/-- Direction vector `LEFT = (-1, 0)`. -/
def LEFT : Int × Int := (-1, 0)

/-- Direction vector `RIGHT = (1, 0)`. -/
def RIGHT : Int × Int := (1, 0)

/-- The mutable state of `ProfessionalSnakeGame` that the engine logic
touches: `self.snake` (list of pixel tuples, head first),
`self.direction`, `self.food`, `self.score`, `self.current_speed`, and
`self.game_over`. -/
structure GameState where
  snake : List (Int × Int)
  direction : Int × Int
  food : Int × Int
  score : Nat
  current_speed : ℚ
  game_over : Bool
deriving DecidableEq, Repr

/-- The snake's head `self.snake[0]`.  The source indexes an always
nonempty list; the default value is never used on reachable states. -/
def headOf (s : GameState) : Int × Int := s.snake.headD (0, 0)

/-- `new_head = (head[0] + dx * CELL_SIZE, head[1] + dy * CELL_SIZE)`
as computed at the top of `move`. -/
def newHead (s : GameState) : Int × Int :=
  ((headOf s).1 + s.direction.1 * CELL_SIZE, (headOf s).2 + s.direction.2 * CELL_SIZE)

/-- The boundary test of `move`:
`new_head[0] < 0 or new_head[0] >= WIDTH or new_head[1] < 0 or new_head[1] >= HEIGHT`. -/
def hitsBoundary (p : Int × Int) : Bool :=
  decide (p.1 < 0) || decide (WIDTH ≤ p.1) || decide (p.2 < 0) || decide (HEIGHT ≤ p.2)

/-- `pygame.Rect(a, CELL_SIZE, CELL_SIZE).colliderect(Rect(b, CELL_SIZE, CELL_SIZE))`:
two axis-aligned `CELL_SIZE`-square rectangles overlap with positive area
(touching edges do not collide, per pygame's `colliderect`). -/
def colliderect (a b : Int × Int) : Bool :=
  decide (a.1 < b.1 + CELL_SIZE) && decide (b.1 < a.1 + CELL_SIZE) &&
  decide (a.2 < b.2 + CELL_SIZE) && decide (b.2 < a.2 + CELL_SIZE)

/-- Coordinate range of a `generate_food` sample:
`x = random.randint(1, WIDTH // CELL_SIZE - 2) * CELL_SIZE` and
`y = random.randint(1, HEIGHT // CELL_SIZE - 2) * CELL_SIZE`, expressed
as interval-plus-divisibility bounds on the pixel pair. -/
def inFoodRange (c : Int × Int) : Prop :=
  CELL_SIZE ≤ c.1 ∧ c.1 ≤ (WIDTH / CELL_SIZE - 2) * CELL_SIZE ∧ c.1 % CELL_SIZE = 0 ∧
  CELL_SIZE ≤ c.2 ∧ c.2 ≤ (HEIGHT / CELL_SIZE - 2) * CELL_SIZE ∧ c.2 % CELL_SIZE = 0

instance (c : Int × Int) : Decidable (inFoodRange c) := by
  unfold inFoodRange; infer_instance

/-- Postcondition of a terminating `generate_food` call against a given
snake list: the returned position is a sample from the sampling range
that is `not in self.snake`. -/
def FoodOk (c : Int × Int) (snake : List (Int × Int)) : Prop :=
  inFoodRange c ∧ c ∉ snake

instance (c : Int × Int) (snake : List (Int × Int)) : Decidable (FoodOk c snake) := by
  unfold FoodOk; infer_instance

/-- `generate_food`'s `while True` rejection-sampling loop, made total by
an explicit fuel argument: `sample` is the stream of `randint` draws
(already scaled by `CELL_SIZE`), and `none` means the loop has not
returned within `fuel` iterations.  The source has no such bound: it
loops forever whenever every draw is `in self.snake`. -/
def generate_food (snake : List (Int × Int)) (sample : Nat → Int × Int) :
    Nat → Option (Int × Int)
  | 0 => none
  | fuel + 1 =>
    if sample 0 ∈ snake then generate_food snake (fun i => sample (i + 1)) fuel
    else some (sample 0)

/-- The grid-centre start cell of `reset_game`:
`start_x = (WIDTH // 2) // CELL_SIZE * CELL_SIZE`, same for `y`. -/
def startCell : Int × Int :=
  (WIDTH / 2 / CELL_SIZE * CELL_SIZE, HEIGHT / 2 / CELL_SIZE * CELL_SIZE)

/-- `reset_game`, with the food position produced by `generate_food`
passed in as `c` (the caller obligation `FoodOk c [startCell]` is imposed
where reachability is defined): a one-segment snake at the grid centre,
direction `RIGHT`, score 0, alive, at `INITIAL_SPEED`. -/
def reset_game (c : Int × Int) : GameState :=
  { snake := [startCell]
  , direction := RIGHT
  , food := c
  , score := 0
  , current_speed := INITIAL_SPEED
  , game_over := false }

/-- `move`, with the food position produced by a (terminating)
`generate_food` call passed in as `c`.  Mirrors the source line by line:
early return when `game_over`; boundary check; self-collision check
against the full current body; then the source inserts `new_head` and
either keeps the tail (food rectangle collision: score, speed, new food)
or pops it.  Inserting then popping the last element is written here as
`(newHead s :: s.snake).dropLast`. -/
def move (c : Int × Int) (s : GameState) : GameState :=
  if s.game_over = true then s
  else if hitsBoundary (newHead s) = true then { s with game_over := true }
  else if newHead s ∈ s.snake then { s with game_over := true }
  else if colliderect (newHead s) s.food = true then
    { s with snake := newHead s :: s.snake
           , score := s.score + 1
           , current_speed := min (s.current_speed + SPEED_INCREMENT) MAX_SPEED
           , food := c }
  else { s with snake := (newHead s :: s.snake).dropLast }

/-- The four arrow keys the `run` loop reacts to. -/
inductive Key where
  | up
  | down
  | left
  | right
deriving DecidableEq, Repr

/-- The direction vector an arrow key requests. -/
def keyDir : Key → Int × Int
  | .up => UP
  | .down => DOWN
  | .left => LEFT
  | .right => RIGHT

/-- The KEYDOWN handling of the `run` loop for arrow keys: guarded by
`if not self.game_over`, each key sets `self.direction` immediately
unless the current direction is its exact opposite
(`K_UP and self.direction != DOWN`, and so on). -/
def handle_key (s : GameState) (k : Key) : GameState :=
  if s.game_over = true then s
  else
    match k with
    | .up => if s.direction ≠ DOWN then { s with direction := UP } else s
    | .down => if s.direction ≠ UP then { s with direction := DOWN } else s
    | .left => if s.direction ≠ RIGHT then { s with direction := LEFT } else s
    | .right => if s.direction ≠ LEFT then { s with direction := RIGHT } else s

/-- Reversal of a direction vector (`UP`/`DOWN` and `LEFT`/`RIGHT` are
opposite pairs). -/
def opposite (d : Int × Int) : Int × Int := (-d.1, -d.2)

/-- Modelled from the spec's words, for comparison with the code's key
handling (claim about `submit_direction` buffering): the direction the
next step moves in is "the most recent submitted direction that is not
the exact reverse of the direction committed at the previous step",
defaulting to the committed direction. -/
def specPendingDirection (committed : Int × Int) (ks : List Key) : Int × Int :=
  ((ks.filter fun k => decide (keyDir k ≠ opposite committed)).map keyDir).getLastD committed

/-- The exact condition under which a `move` call reaches the food
branch (score, speed and food all change, tail kept): alive, new head in
bounds, no self collision, and the head rectangle collides with the food
rectangle. -/
def stepEats (s : GameState) : Prop :=
  s.game_over = false ∧ hitsBoundary (newHead s) = false ∧
  newHead s ∉ s.snake ∧ colliderect (newHead s) s.food = true

instance (s : GameState) : Decidable (stepEats s) := by
  unfold stepEats; infer_instance

/-- Both coordinates are multiples of `CELL_SIZE` (grid alignment). -/
def gridAligned (p : Int × Int) : Prop :=
  p.1 % CELL_SIZE = 0 ∧ p.2 % CELL_SIZE = 0

instance (p : Int × Int) : Decidable (gridAligned p) := by
  unfold gridAligned; infer_instance

/-- Grid alignment together with non-negativity of both coordinates. -/
def alignedCell (p : Int × Int) : Prop :=
  0 ≤ p.1 ∧ 0 ≤ p.2 ∧ gridAligned p

instance (p : Int × Int) : Decidable (alignedCell p) := by
  unfold alignedCell; infer_instance

/-- The engine states the program can be in: any `reset_game` outcome,
closed under arrow-key handling and under `move` (where a `move` that
reaches the food branch must receive a food position that
`generate_food` could have returned against the post-insertion snake,
exactly as in the source, which calls `generate_food` after
`self.snake.insert(0, new_head)`). -/
inductive Reachable : GameState → Prop where
  | reset : ∀ c, FoodOk c [startCell] → Reachable (reset_game c)
  | key : ∀ s k, Reachable s → Reachable (handle_key s k)
  | step : ∀ s c, Reachable s → (stepEats s → FoodOk c (newHead s :: s.snake)) →
      Reachable (move c s)

/-- The internal invariant carried through reachability: nonempty snake,
every segment and the food grid-aligned and non-negative, food off the
snake, speed within `[INITIAL_SPEED, MAX_SPEED]`. -/
def EngineInv (s : GameState) : Prop :=
  s.snake ≠ [] ∧ (∀ p ∈ s.snake, alignedCell p) ∧ alignedCell s.food ∧
  s.food ∉ s.snake ∧ INITIAL_SPEED ≤ s.current_speed ∧ s.current_speed ≤ MAX_SPEED

/-- Every position `generate_food` can sample: the full sampling range
`[1, WIDTH // CELL_SIZE - 2] × [1, HEIGHT // CELL_SIZE - 2]`, scaled to
pixels — 26 × 19 cells.  A snake occupying all of them starves the
rejection sampling of free candidates. -/
def allFoodCells : List (Int × Int) :=
  (List.range 26).flatMap fun i =>
    (List.range 19).map fun j =>
      ((Int.ofNat i + 1) * CELL_SIZE, (Int.ofNat j + 1) * CELL_SIZE)

/-- `n` consecutive `move` calls, each receiving the same replacement
food position `c` (which is only consumed on an eating step). -/
def iterMove (c : Int × Int) : Nat → GameState → GameState
  | 0, s => s
  | n + 1, s => iterMove c n (move c s)

/-- The engine after a reset followed by thirteen rightward steps: head
at pixel (756, 280), one column left of the rightmost one the boundary
check admits. -/
def cornerState : GameState :=
  { snake := [(756, 280)], direction := RIGHT, food := (28, 28)
  , score := 0, current_speed := INITIAL_SPEED, game_over := false }

/-- Head at pixel (784, 280) — cell (28, 10), the 29th column — heading
right. -/
def edgeState : GameState :=
  { snake := [(784, 280)], direction := RIGHT, food := (28, 28)
  , score := 0, current_speed := INITIAL_SPEED, game_over := false }

/-- A five-segment snake curled so that moving up runs the head into its
own body: head (392, 280), body up to (364, 252), heading `UP` into
(392, 252). -/
def loopState : GameState :=
  { snake := [(392, 280), (420, 280), (420, 252), (392, 252), (364, 252)]
  , direction := UP, food := (28, 28), score := 3
  , current_speed := INITIAL_SPEED, game_over := false }

/-- A one-segment snake one cell left of the food, heading right: the
next step eats. -/
def eatState : GameState :=
  { snake := [(364, 280)], direction := RIGHT, food := (392, 280)
  , score := 0, current_speed := INITIAL_SPEED, game_over := false }

/-- A game-over state (the start state with `game_over` set). -/
def deadState : GameState :=
  { snake := [(392, 280)], direction := RIGHT, food := (28, 28)
  , score := 0, current_speed := INITIAL_SPEED, game_over := true }

/-! ### Helper lemmas -/

/-- For grid-aligned positions, the pygame rectangle-overlap test of
`move` coincides with exact equality of positions. -/
theorem colliderect_eq_iff {a b : Int × Int} (ha : gridAligned a) (hb : gridAligned b) :
    colliderect a b = true ↔ a = b := by
  simp only [gridAligned, CELL_SIZE] at ha hb
  simp only [colliderect, CELL_SIZE, Bool.and_eq_true, decide_eq_true_eq, Prod.ext_iff]
  omega

/-- When every sample the stream can produce is occupied by the snake,
the rejection-sampling loop never returns, whatever the fuel. -/
theorem generate_food_all_occupied (snake : List (Int × Int)) :
    ∀ (fuel : Nat) (sample : Nat → Int × Int), (∀ i, sample i ∈ snake) →
      generate_food snake sample fuel = none := by
  intro fuel
  induction fuel with
  | zero => intro sample _; rfl
  | succ n ih =>
    intro sample h
    rw [generate_food, if_pos (h 0)]
    exact ih _ (fun i => h (i + 1))

/-- Every position in the sampling range is listed in `allFoodCells`. -/
theorem mem_allFoodCells {c : Int × Int} (h : inFoodRange c) : c ∈ allFoodCells := by
  obtain ⟨h1, h2, h3, h4, h5, h6⟩ := h
  simp only [CELL_SIZE, WIDTH, HEIGHT] at h1 h2 h3 h4 h5 h6
  obtain ⟨i, hi⟩ := Int.dvd_of_emod_eq_zero h3
  obtain ⟨j, hj⟩ := Int.dvd_of_emod_eq_zero h6
  unfold allFoodCells
  apply List.mem_flatMap.mpr
  refine ⟨(i - 1).toNat, ?_, ?_⟩
  · apply List.mem_range.mpr
    omega
  · apply List.mem_map.mpr
    refine ⟨(j - 1).toNat, ?_, ?_⟩
    · apply List.mem_range.mpr
      omega
    · have hi' : Int.ofNat (i - 1).toNat = i - 1 := Int.toNat_of_nonneg (by omega)
      have hj' : Int.ofNat (j - 1).toNat = j - 1 := Int.toNat_of_nonneg (by omega)
      rw [Prod.ext_iff]
      simp only [CELL_SIZE, hi', hj']
      constructor <;> omega

/-- Food samples are grid-aligned and non-negative. -/
theorem alignedCell_of_inFoodRange {c : Int × Int} (h : inFoodRange c) : alignedCell c := by
  obtain ⟨h1, h2, h3, h4, h5, h6⟩ := h
  simp only [CELL_SIZE, WIDTH, HEIGHT] at h1 h2 h3 h4 h5 h6
  unfold alignedCell gridAligned CELL_SIZE
  exact ⟨by omega, by omega, by omega, by omega⟩

/-- A step from a grid-aligned snake produces a grid-aligned new head. -/
theorem newHead_gridAligned {s : GameState} (hne : s.snake ≠ [])
    (ha : ∀ p ∈ s.snake, alignedCell p) : gridAligned (newHead s) := by
  obtain ⟨p, t, hpt⟩ := List.exists_cons_of_ne_nil hne
  have hp : alignedCell p := ha p (by rw [hpt]; exact List.mem_cons_self p t)
  obtain ⟨-, -, hg1, hg2⟩ := hp
  have hH : headOf s = p := by rw [headOf, hpt]; rfl
  simp only [gridAligned, CELL_SIZE, newHead, hH] at hg1 hg2 ⊢
  omega

/-- Arrow-key handling touches only `direction`. -/
theorem handle_key_keeps (s : GameState) (k : Key) :
    (handle_key s k).snake = s.snake ∧ (handle_key s k).food = s.food ∧
    (handle_key s k).score = s.score ∧
    (handle_key s k).current_speed = s.current_speed ∧
    (handle_key s k).game_over = s.game_over := by
  cases k <;> rw [handle_key] <;> split <;>
    first
      | exact ⟨rfl, rfl, rfl, rfl, rfl⟩
      | (split <;> exact ⟨rfl, rfl, rfl, rfl, rfl⟩)

/-- `current_speed` after a `move`: saturating increment on an eating
step, unchanged otherwise. -/
theorem move_speed (s : GameState) (c : Int × Int) :
    (move c s).current_speed =
      if stepEats s then min (s.current_speed + SPEED_INCREMENT) MAX_SPEED
      else s.current_speed := by
  by_cases he : stepEats s
  · obtain ⟨e1, e2, e3, e4⟩ := he
    rw [move, if_neg (by simp [e1]), if_neg (by simp [e2]), if_neg e3, if_pos e4,
      if_pos ⟨e1, e2, e3, e4⟩]
  · rw [if_neg he]
    by_cases h1 : s.game_over = true
    · rw [move, if_pos h1]
    · rw [move, if_neg h1]
      by_cases h2 : hitsBoundary (newHead s) = true
      · rw [if_pos h2]
      · rw [if_neg h2]
        by_cases h3 : newHead s ∈ s.snake
        · rw [if_pos h3]
        · rw [if_neg h3]
          by_cases h4 : colliderect (newHead s) s.food = true
          · exact absurd ⟨by simpa using h1, by simpa using h2, h3, h4⟩ he
          · rw [if_neg h4]

/-- `score` after a `move`: incremented by one on an eating step,
unchanged otherwise. -/
theorem move_score (s : GameState) (c : Int × Int) :
    (move c s).score = if stepEats s then s.score + 1 else s.score := by
  by_cases he : stepEats s
  · obtain ⟨e1, e2, e3, e4⟩ := he
    rw [move, if_neg (by simp [e1]), if_neg (by simp [e2]), if_neg e3, if_pos e4,
      if_pos ⟨e1, e2, e3, e4⟩]
  · rw [if_neg he]
    by_cases h1 : s.game_over = true
    · rw [move, if_pos h1]
    · rw [move, if_neg h1]
      by_cases h2 : hitsBoundary (newHead s) = true
      · rw [if_pos h2]
      · rw [if_neg h2]
        by_cases h3 : newHead s ∈ s.snake
        · rw [if_pos h3]
        · rw [if_neg h3]
          by_cases h4 : colliderect (newHead s) s.food = true
          · exact absurd ⟨by simpa using h1, by simpa using h2, h3, h4⟩ he
          · rw [if_neg h4]

/-- A head that passed the boundary check is inside the pixel screen. -/
theorem inBounds_of_not_hitsBoundary {p : Int × Int} (h : hitsBoundary p = false) :
    0 ≤ p.1 ∧ p.1 < WIDTH ∧ 0 ≤ p.2 ∧ p.2 < HEIGHT := by
  simp only [hitsBoundary, WIDTH, HEIGHT, Bool.or_eq_false_iff,
    decide_eq_false_iff_not, not_lt, not_le] at h
  simp only [WIDTH, HEIGHT]
  omega

/-- `reset_game` establishes the engine invariant. -/
theorem engineInv_reset {c : Int × Int} (hc : FoodOk c [startCell]) :
    EngineInv (reset_game c) := by
  obtain ⟨hcr, hcm⟩ := hc
  refine ⟨List.cons_ne_nil _ _, ?_, alignedCell_of_inFoodRange hcr, hcm, le_refl _, ?_⟩
  · intro p hp
    rw [show (reset_game c).snake = [startCell] from rfl, List.mem_singleton] at hp
    subst hp
    decide
  · norm_num [reset_game, INITIAL_SPEED, MAX_SPEED]

/-- Key handling preserves the engine invariant. -/
theorem engineInv_key {s : GameState} (k : Key) (h : EngineInv s) :
    EngineInv (handle_key s k) := by
  obtain ⟨h1, h2, -, h4, -⟩ := handle_key_keeps s k
  unfold EngineInv at h ⊢
  rw [h1, h2, h4]
  exact h

/-- `move` preserves the engine invariant, provided any food it places
satisfies the `generate_food` postcondition against the grown snake. -/
theorem engineInv_move {s : GameState} (c : Int × Int)
    (hfo : stepEats s → FoodOk c (newHead s :: s.snake)) (h : EngineInv s) :
    EngineInv (move c s) := by
  obtain ⟨hne, hal, haf, hfs, hsp1, hsp2⟩ := h
  by_cases h1 : s.game_over = true
  · rw [move, if_pos h1]; exact ⟨hne, hal, haf, hfs, hsp1, hsp2⟩
  · rw [move, if_neg h1]
    by_cases h2 : hitsBoundary (newHead s) = true
    · rw [if_pos h2]; exact ⟨hne, hal, haf, hfs, hsp1, hsp2⟩
    · rw [if_neg h2]
      by_cases h3 : newHead s ∈ s.snake
      · rw [if_pos h3]; exact ⟨hne, hal, haf, hfs, hsp1, hsp2⟩
      · rw [if_neg h3]
        have hb := inBounds_of_not_hitsBoundary (by simpa using h2)
        have hnh : alignedCell (newHead s) :=
          ⟨hb.1, hb.2.2.1, newHead_gridAligned hne hal⟩
        by_cases h4 : colliderect (newHead s) s.food = true
        · rw [if_pos h4]
          obtain ⟨hcr, hcm⟩ := hfo ⟨by simpa using h1, by simpa using h2, h3, h4⟩
          refine ⟨List.cons_ne_nil _ _, ?_, alignedCell_of_inFoodRange hcr, hcm, ?_,
            min_le_right _ _⟩
          · intro p hp
            rcases List.mem_cons.mp hp with hp | hp
            · subst hp; exact hnh
            · exact hal p hp
          · exact le_min
              (le_trans hsp1 (le_add_of_nonneg_right (by norm_num [SPEED_INCREMENT])))
              (by norm_num [INITIAL_SPEED, MAX_SPEED])
        · rw [if_neg h4]
          have hfne : s.food ≠ newHead s := by
            intro heq
            exact h4 ((colliderect_eq_iff hnh.2.2 haf.2.2).mpr heq.symm)
          refine ⟨?_, ?_, haf, ?_, hsp1, hsp2⟩
          · apply List.length_pos.mp
            rw [List.length_dropLast, List.length_cons]
            simp only [Nat.add_sub_cancel]
            exact List.length_pos.mpr hne
          · intro p hp
            have hp' : p ∈ newHead s :: s.snake := (List.dropLast_sublist _).subset hp
            rcases List.mem_cons.mp hp' with hp' | hp'
            · subst hp'; exact hnh
            · exact hal p hp'
          · intro hmem
            have hm' : s.food ∈ newHead s :: s.snake := (List.dropLast_sublist _).subset hmem
            rcases List.mem_cons.mp hm' with h' | h'
            · exact hfne h'
            · exact hfs h'

/-- Every reachable engine state satisfies the invariant. -/
theorem reachable_inv {s : GameState} (h : Reachable s) : EngineInv s := by
  induction h with
  | reset c hc => exact engineInv_reset hc
  | key s k _ ih => exact engineInv_key k ih
  | step s c _ hfo ih => exact engineInv_move c hfo ih

/-- Iterated non-eating moves stay within the reachable states. -/
theorem reachable_iterMove (c : Int × Int) :
    ∀ (n : Nat) (s : GameState), Reachable s →
      (∀ k, k < n → ¬ stepEats (iterMove c k s)) → Reachable (iterMove c n s) := by
  intro n
  induction n with
  | zero => intro s hs _; exact hs
  | succ m ih =>
    intro s hs hk
    have h0 : ¬ stepEats s := hk 0 (Nat.succ_pos m)
    have h1 : Reachable (move c s) := Reachable.step s c hs (fun he => absurd he h0)
    exact ih (move c s) h1 (fun k hkm => hk (k + 1) (by omega))

/-! ### Claim theorems -/

/-- Claim C1, counterexample: the claim says a new head whose cell
column is at least 28 (the claimed grid width floor(800/28)) is a
boundary collision.  But from the reachable state with the head at
pixel (756, 280) — thirteen rightward steps after a reset — one more
step puts the head at cell (28, 10), pixel (784, 280), and the engine
does not die: pixel 784 passes the check `new_head[0] >= WIDTH` since
784 < 800, and the snake advances normally. -/
theorem C1_counterexample :
    Reachable cornerState ∧
    newHead cornerState = (CELL_SIZE * 28, CELL_SIZE * 10) ∧
    (move (28, 28) cornerState).game_over = false ∧
    (move (28, 28) cornerState).snake = [(784, 280)] := by
  refine ⟨?_, by decide, by decide, by decide⟩
  have h13 : iterMove (28, 28) 13 (reset_game (28, 28)) = cornerState := by decide
  rw [← h13]
  exact reachable_iterMove (28, 28) 13 (reset_game (28, 28))
    (Reachable.reset (28, 28) (by decide)) (by decide)

/-- Claim C1, amended: for every `move` in the Running state whose new
head is not a self-collision, the engine sets `game_over` (and performs
no other state change) if and only if the new head cell (i, j) lies
outside `[0, 29) × [0, 22)` — the playable grid is ceil(800/28) = 29
columns by ceil(600/28) = 22 rows, one more in each axis than the
floor-derived 28 × 21 of the original claim, because the boundary check
works in raw pixels against 800 and 600, which are not multiples of 28. -/
theorem C1_boundary (s : GameState) (c : Int × Int) (i j : Int)
    (hg : s.game_over = false) (hm : newHead s ∉ s.snake)
    (hij : newHead s = (CELL_SIZE * i, CELL_SIZE * j)) :
    ((move c s).game_over = true ↔ (i < 0 ∨ 29 ≤ i ∨ j < 0 ∨ 22 ≤ j)) ∧
    ((i < 0 ∨ 29 ≤ i ∨ j < 0 ∨ 22 ≤ j) → move c s = { s with game_over := true }) := by
  have hg' : ¬ (s.game_over = true) := by simp [hg]
  have hbu : hitsBoundary (newHead s) = true ↔ (i < 0 ∨ 29 ≤ i ∨ j < 0 ∨ 22 ≤ j) := by
    rw [hij]
    simp only [hitsBoundary, CELL_SIZE, WIDTH, HEIGHT, Bool.or_eq_true, decide_eq_true_eq]
    omega
  by_cases hb : hitsBoundary (newHead s) = true
  · rw [move, if_neg hg', if_pos hb]
    exact ⟨by simp [hbu.mp hb], fun _ => rfl⟩
  · have hd : ¬ (i < 0 ∨ 29 ≤ i ∨ j < 0 ∨ 22 ≤ j) := fun hdisj => hb (hbu.mpr hdisj)
    refine ⟨?_, fun hdisj => absurd hdisj hd⟩
    rw [move, if_neg hg', if_neg hb, if_neg hm]
    by_cases h4 : colliderect (newHead s) s.food = true
    · rw [if_pos h4]
      simp [hg, hd]
    · rw [if_neg h4]
      simp [hg, hd]

/-- Claim C1, witness: from the head at cell (28, 10) heading right the
new head is cell (29, 10), which is outside `[0, 29) × [0, 22)`, and the
step is a pure boundary game-over. -/
theorem C1_witness :
    ((move (28, 28) edgeState).game_over = true ↔
      ((29 : Int) < 0 ∨ 29 ≤ (29 : Int) ∨ (10 : Int) < 0 ∨ 22 ≤ (10 : Int))) ∧
    (((29 : Int) < 0 ∨ 29 ≤ (29 : Int) ∨ (10 : Int) < 0 ∨ 22 ≤ (10 : Int)) →
      move (28, 28) edgeState = { edgeState with game_over := true }) :=
  C1_boundary edgeState (28, 28) 29 10 rfl (by decide) (by decide)

/-- Claim C2, counterexample: the claim says the direction the next
step moves in is the most recent submission that is not the reverse of
the last committed direction.  With committed direction Right, the
submission sequence Up-then-Left leaves the code's direction at Left —
the exact reverse of the committed direction — while the claimed buffer
semantics yields Up: each key is validated against the already-updated
current direction, not the committed one, so there is no last-write-wins
buffer and the anti-reverse rule is circumventable in one tick. -/
theorem C2_counterexample :
    (List.foldl handle_key (reset_game (28, 28)) [Key.up, Key.left]).direction = LEFT ∧
    specPendingDirection (reset_game (28, 28)).direction [Key.up, Key.left] = UP ∧
    LEFT ≠ UP ∧
    LEFT = opposite (reset_game (28, 28)).direction :=
  ⟨by decide, by decide, by decide, by decide⟩

/-- Claim C2, amended: direction submissions are not buffered — while
the game is running, each arrow key takes effect immediately, replacing
`direction` by the requested vector unless that request is the exact
reverse of the direction current at the moment of the key event (which
may already reflect earlier keys pressed since the previous step).  In
particular a single submission of the exact opposite of the current
direction never changes it, but two submissions between consecutive
steps can achieve a net reversal of the last committed direction. -/
theorem C2_direction_immediate (s : GameState) (k : Key) (h : s.game_over = false) :
    (handle_key s k).direction =
      if keyDir k = opposite s.direction then s.direction else keyDir k := by
  have h' : ¬ (s.game_over = true) := by simp [h]
  have inv : ∀ d : Int × Int, opposite (opposite d) = d := by
    intro d; simp [opposite]
  cases k <;> rw [handle_key, if_neg h'] <;> simp only [keyDir]
  case up =>
    by_cases hd : s.direction = DOWN
    · rw [if_neg (fun hne => hne hd), if_pos (by rw [hd]; decide)]
    · rw [if_pos hd, if_neg (fun he => hd (by rw [← inv s.direction, ← he]; decide))]
  case down =>
    by_cases hd : s.direction = UP
    · rw [if_neg (fun hne => hne hd), if_pos (by rw [hd]; decide)]
    · rw [if_pos hd, if_neg (fun he => hd (by rw [← inv s.direction, ← he]; decide))]
  case left =>
    by_cases hd : s.direction = RIGHT
    · rw [if_neg (fun hne => hne hd), if_pos (by rw [hd]; decide)]
    · rw [if_pos hd, if_neg (fun he => hd (by rw [← inv s.direction, ← he]; decide))]
  case right =>
    by_cases hd : s.direction = LEFT
    · rw [if_neg (fun hne => hne hd), if_pos (by rw [hd]; decide)]
    · rw [if_pos hd, if_neg (fun he => hd (by rw [← inv s.direction, ← he]; decide))]

/-- Claim C2, witness: pressing Up just after a reset (direction Right)
changes the direction to Up, as the immediate-update rule dictates. -/
theorem C2_witness :
    (handle_key (reset_game (28, 28)) Key.up).direction =
      if keyDir Key.up = opposite (reset_game (28, 28)).direction
      then (reset_game (28, 28)).direction else keyDir Key.up :=
  C2_direction_immediate (reset_game (28, 28)) Key.up rfl

/-- Claim C3, counterexample: the claim says food placement bounds its
retries and terminates on every input state.  On the input state whose
snake occupies all 494 cells of the sampling range, the loop returns no
position for any retry budget (here with the sampler constantly drawing
cell (1, 1)): the source's `while True` has no retry bound and no
failure report. -/
theorem C3_counterexample :
    ¬ ∃ fuel c, generate_food allFoodCells (fun _ => (28, 28)) fuel = some c := by
  rintro ⟨fuel, c, hc⟩
  rw [generate_food_all_occupied allFoodCells fuel _ (fun _ => by decide)] at hc
  exact Option.noConfusion hc

/-- Claim C3, amended: `generate_food` does not bound its
rejection-sampling retries and reports no fault; it is an unbounded
loop that returns only once a sample misses the snake, and on an input
state whose snake covers the entire sampling range
`[1, 26] × [1, 19]` (in cells) it never terminates, for every possible
sequence of random draws. -/
theorem C3_amended (sample : Nat → Int × Int)
    (h : ∀ i, inFoodRange (sample i)) (fuel : Nat) :
    generate_food allFoodCells sample fuel = none :=
  generate_food_all_occupied allFoodCells fuel sample (fun i => mem_allFoodCells (h i))

/-- Claim C3, witness: with the sampler constantly drawing cell (1, 1),
five iterations of the loop against the full-range snake return
nothing. -/
theorem C3_witness : generate_food allFoodCells (fun _ => (28, 28)) 5 = none :=
  C3_amended (fun _ => (28, 28)) (fun _ => (by decide : inFoodRange (28, 28))) 5

/-- Claim C4: for every `move` in the Running state whose new head is
inside the boundary, the engine sets `game_over` if and only if the new
head equals some cell of the snake body as it is before this step's
insertion and tail removal — the membership test `new_head in
self.snake` runs over the full current list, the tail included. -/
theorem C4_self_collision (s : GameState) (c : Int × Int)
    (hg : s.game_over = false) (hb : hitsBoundary (newHead s) = false) :
    (move c s).game_over = true ↔ newHead s ∈ s.snake := by
  have hg' : ¬ (s.game_over = true) := by simp [hg]
  have hb' : ¬ (hitsBoundary (newHead s) = true) := by simp [hb]
  rw [move, if_neg hg', if_neg hb']
  by_cases hm : newHead s ∈ s.snake
  · rw [if_pos hm]
    simp [hm]
  · rw [if_neg hm]
    by_cases h4 : colliderect (newHead s) s.food = true
    · rw [if_pos h4]; simp [hg, hm]
    · rw [if_neg h4]; simp [hg, hm]

/-- Claim C4, witness: a five-segment snake whose head turns up into its
own body dies of self-collision. -/
theorem C4_witness :
    (move (28, 28) loopState).game_over = true ↔ newHead loopState ∈ loopState.snake :=
  C4_self_collision loopState (28, 28) rfl (by decide)

/-- Claim C5: on every collision-free `move` from a Running state with
grid-aligned head and food, the snake's length grows by exactly one when
the new head equals the food cell and is unchanged otherwise. -/
theorem C5_length (s : GameState) (c : Int × Int)
    (hg : s.game_over = false) (hb : hitsBoundary (newHead s) = false)
    (hm : newHead s ∉ s.snake)
    (han : gridAligned (newHead s)) (haf : gridAligned s.food) :
    (move c s).snake.length =
      s.snake.length + (if newHead s = s.food then 1 else 0) := by
  have hg' : ¬ (s.game_over = true) := by simp [hg]
  have hb' : ¬ (hitsBoundary (newHead s) = true) := by simp [hb]
  rw [move, if_neg hg', if_neg hb', if_neg hm]
  by_cases he : newHead s = s.food
  · rw [if_pos ((colliderect_eq_iff han haf).mpr he), if_pos he]
    simp [List.length_cons]
  · rw [if_neg (fun h4 => he ((colliderect_eq_iff han haf).mp h4)), if_neg he]
    simp [List.length_dropLast, List.length_cons]

/-- Claim C5, witness: a one-segment snake stepping onto the food grows
to length two. -/
theorem C5_witness :
    (move (56, 56) eatState).snake.length =
      eatState.snake.length + (if newHead eatState = eatState.food then 1 else 0) :=
  C5_length eatState (56, 56) rfl (by decide) (by decide) (by decide) (by decide)

/-- Claim C6: in every state reachable by any sequence of `reset_game`,
key handling and `move`, the food cell is not occupied by the snake
(this covers in particular the state just after a reset and just after
every food-eaten step, where `generate_food` re-samples until the
candidate is off the grown snake). -/
theorem C6_food_off_snake {s : GameState} (h : Reachable s) : s.food ∉ s.snake :=
  (reachable_inv h).2.2.2.1

/-- Claim C6, witness: after a reset placing the food at cell (1, 1),
the food is off the one-segment snake at the grid centre. -/
theorem C6_witness : (reset_game (28, 28)).food ∉ (reset_game (28, 28)).snake :=
  C6_food_off_snake (Reachable.reset (28, 28) (by decide))

/-- Claim C7: in every reachable state the speed lies in
`[INITIAL_SPEED, MAX_SPEED]`; across `move` calls it is non-decreasing,
equals `min (speed + SPEED_INCREMENT) MAX_SPEED` after a food-eaten
step, and is unchanged by every other step.  (The source stores the
speed as a Python float; it is modelled here by exact rationals with
`SPEED_INCREMENT = 2/5`.) -/
theorem C7_speed {s : GameState} (h : Reachable s) :
    (INITIAL_SPEED ≤ s.current_speed ∧ s.current_speed ≤ MAX_SPEED) ∧
    (∀ c, s.current_speed ≤ (move c s).current_speed) ∧
    (∀ c, stepEats s →
      (move c s).current_speed = min (s.current_speed + SPEED_INCREMENT) MAX_SPEED) ∧
    (∀ c, ¬ stepEats s → (move c s).current_speed = s.current_speed) := by
  obtain ⟨-, -, -, -, hsp1, hsp2⟩ := reachable_inv h
  refine ⟨⟨hsp1, hsp2⟩, ?_, ?_, ?_⟩
  · intro c
    rw [move_speed]
    split_ifs
    · exact le_min (le_add_of_nonneg_right (by norm_num [SPEED_INCREMENT])) hsp2
    · exact le_refl _
  · intro c he; rw [move_speed, if_pos he]
  · intro c he; rw [move_speed, if_neg he]

/-- Claim C7, witness: the reset state's speed is within the bounds. -/
theorem C7_witness :
    INITIAL_SPEED ≤ (reset_game (28, 28)).current_speed ∧
    (reset_game (28, 28)).current_speed ≤ MAX_SPEED :=
  (C7_speed (Reachable.reset (28, 28) (by decide))).1

/-- Claim C8: `reset_game` zeroes the score (a natural number, hence
non-negative by type); a `move` increments it by exactly one on a
food-eaten step and leaves it unchanged on every other step; and for
grid-aligned head and food, eating is exactly a collision-free step
whose new head equals the food cell. -/
theorem C8_score (s : GameState) (c f : Int × Int) :
    (reset_game f).score = 0 ∧
    (stepEats s → (move c s).score = s.score + 1) ∧
    (¬ stepEats s → (move c s).score = s.score) ∧
    (gridAligned (newHead s) → gridAligned s.food →
      (stepEats s ↔ s.game_over = false ∧ hitsBoundary (newHead s) = false ∧
        newHead s ∉ s.snake ∧ newHead s = s.food)) := by
  refine ⟨rfl, ?_, ?_, ?_⟩
  · intro he; rw [move_score, if_pos he]
  · intro he; rw [move_score, if_neg he]
  · intro han haf
    unfold stepEats
    rw [colliderect_eq_iff han haf]

/-- Claim C8, witness: the eating step increments the score from 0
to 1. -/
theorem C8_witness :
    (move (56, 56) eatState).score = eatState.score + 1 :=
  (C8_score eatState (56, 56) (28, 28)).2.1 (by decide)

/-- Claim C9: whenever `game_over` is set, `move` and key handling
leave the entire engine state unchanged, and only `reset_game` produces
a Running state again. -/
theorem C9_gameover_noop (s : GameState) (h : s.game_over = true) :
    (∀ c, move c s = s) ∧ (∀ k, handle_key s k = s) ∧
    (∀ f, (reset_game f).game_over = false) :=
  ⟨fun c => by rw [move, if_pos h], fun k => by rw [handle_key.eq_def, if_pos h],
    fun _ => rfl⟩

/-- Claim C9, witness: on a concrete dead state, a `move` and an Up key
are both no-ops. -/
theorem C9_witness :
    move (28, 28) deadState = deadState ∧ handle_key deadState Key.up = deadState :=
  ⟨(C9_gameover_noop deadState rfl).1 (28, 28),
    (C9_gameover_noop deadState rfl).2.1 Key.up⟩

/-- Claim C10: in every reachable state, every snake segment and the
food are grid-aligned with non-negative coordinates (exact multiples of
`CELL_SIZE`), and consequently the rectangle-overlap food test of `move`
coincides with exact cell equality of the new head and the food. -/
theorem C10_alignment {s : GameState} (h : Reachable s) :
    (∀ p ∈ s.snake, alignedCell p) ∧ alignedCell s.food ∧
    (colliderect (newHead s) s.food = true ↔ newHead s = s.food) := by
  have hI := reachable_inv h
  exact ⟨hI.2.1, hI.2.2.1,
    colliderect_eq_iff (newHead_gridAligned hI.1 hI.2.1) hI.2.2.1.2.2⟩

/-- Claim C10, witness: alignment and the overlap-equality coincidence
hold on the reset state with food at cell (1, 1). -/
theorem C10_witness :
    alignedCell (reset_game (28, 28)).food ∧
    (colliderect (newHead (reset_game (28, 28))) (reset_game (28, 28)).food = true ↔
      newHead (reset_game (28, 28)) = (reset_game (28, 28)).food) :=
  (C10_alignment (Reachable.reset (28, 28) (by decide))).2
